import Mathlib

/-!
Verification of the stateful alert pipeline of the DicordAlertingSystem
repository (insider-transaction / sentiment / IPO monitors posting to a
webhook, with on-disk dedup history).

The Python sources are shallowly embedded:
* JSON event records become Lean structures; numeric JSON fields become
  `Int`/`ℚ`; string fields stay `String`.
* The per-monitor history dict (`EventKey -> record`) becomes an
  association list `List (String × _)` with `List.lookup` as membership
  test (Python `in` / `history.get`).
* Wall-clock timestamps (`datetime.utcnow()` ISO strings) become `Int`
  seconds; one run uses a single `now` value (the source calls `utcnow()`
  per insertion, microseconds apart, which never affects the 30/365-day
  retention comparisons being verified).
* HTTP traffic is a parameter: a fetch sees a schedule
  `responses : Nat → ApiResult _` indexed by attempt number; a webhook
  sees `webhook : Nat → Nat → WebhookResult` indexed by batch and attempt.
* `json.loads` / `json.load` become a `parse` parameter; an uncaught
  Python exception becomes `Except.error`.
-/

namespace DicordAlerting

/-! # Definitions

All embedded data models and operations come first; the lemmas and the
per-claim theorems follow in the second half of the file. -/

/-! ### Lexicographic string comparison

Python compares `str` values (the `filing_date` sort keys, ISO dates) by
Unicode code point, lexicographically.  This executable version mirrors
that; Lean's own `String` order is kernel-opaque so it is reimplemented
on the character list. -/

def charListLe : List Char → List Char → Bool
  | [], _ => true
  | _ :: _, [] => false
  | c :: cs, d :: ds =>
    if c.toNat < d.toNat then true
    else if d.toNat < c.toNat then false
    else charListLe cs ds

def strLe (a b : String) : Bool := charListLe a.toList b.toList

/-! ### HTTP outcomes

One upstream GET (`requests.get` + `raise_for_status`) produces either a
parsed JSON body, an HTTP 429, another HTTP error, or a transport-level
exception; same classification for a webhook POST. -/

inductive ApiResult (α : Type) where
  | success : α → ApiResult α
  | rateLimited : ApiResult α
  | httpError : ApiResult α
  | requestError : ApiResult α
deriving DecidableEq, Repr

inductive WebhookResult where
  | ok : WebhookResult
  | rateLimited : WebhookResult
  | httpError : WebhookResult
  | requestError : WebhookResult
deriving DecidableEq, Repr

/-! ### scripts/insider_transactions_alert.py -/

namespace InsiderTx

/-- One element of the upstream `data` array for the insider-transactions
endpoint, restricted to the fields the script reads.  `transactionPrice`
is the value of `transaction.get('transactionPrice', 0)`: an absent field
is already the number `0` here (the script's own default). -/
structure Txn where
  symbol : String
  name : String
  transactionDate : String
  share : Int
  transactionCode : String
  filingDate : String
  change : Int
  transactionPrice : ℚ
deriving DecidableEq, Repr

/-- `create_transaction_id`: the EventKey
`f"{symbol}_{name}_{transactionDate}_{share}_{transactionCode}"`. -/
def create_transaction_id (t : Txn) : String :=
  t.symbol ++ "_" ++ t.name ++ "_" ++ t.transactionDate ++ "_" ++ toString t.share
    ++ "_" ++ t.transactionCode

def MIN_TRANSACTION_VALUE : ℚ := 100000

def MIN_SHARES_CHANGED : Int := 10000

/-- `is_significant_transaction`: `transaction_value = abs(change * transactionPrice)
if transactionPrice else 0`, then `transaction_value >= 100_000 or abs(change) >= 10_000`.
(Python truthiness of a number is `≠ 0`.) -/
def is_significant_transaction (t : Txn) : Bool :=
  let transaction_value : ℚ :=
    if t.transactionPrice ≠ 0 then |(t.change : ℚ) * t.transactionPrice| else 0
  transaction_value ≥ MIN_TRANSACTION_VALUE || |t.change| ≥ MIN_SHARES_CHANGED

/-- The per-key history entry `{'first_seen': ..., 'transaction': ...}`. -/
structure HistRec where
  first_seen : Int
  transaction : Txn
deriving DecidableEq, Repr

abbrev History := List (String × HistRec)

/-- The inner loop of `main` over the fetched transactions (the per-symbol
loops concatenated, in watchlist order): a transaction whose id is
already in `history` is skipped entirely; otherwise it is appended to
`new_transactions` when significant, and its history entry is written in
either case. `acc` is the `new_transactions` accumulator. -/
def collectLoop (now : Int) : List Txn → List Txn → History → List Txn × History
  | [], acc, history => (acc, history)
  | t :: rest, acc, history =>
    match history.lookup (create_transaction_id t) with
    | some _ => collectLoop now rest acc history
    | none =>
      collectLoop now rest
        (if is_significant_transaction t then acc ++ [t] else acc)
        (history ++ [(create_transaction_id t, ({ first_seen := now, transaction := t } : HistRec))])

/-- 30-day retention horizon (`timedelta(days=30)`) in seconds. -/
def RETENTION_SECONDS : Int := 30 * 86400

/-- End-of-run cleanup: keep `v` iff `'first_seen' in v` and
`fromisoformat(v['first_seen']) > utcnow() - timedelta(days=30)`.
Embedded records always carry `first_seen`, so only the age test remains. -/
def cleanup (now : Int) (history : History) : History :=
  history.filter (fun kv => decide (now - RETENTION_SECONDS < kv.2.first_seen))

/-- One complete run of `main` on the already-fetched data: collect the
new transactions (these are exactly the ones formatted and sent to the
webhook), then prune and return the history that `save_history` persists. -/
def runOnce (now : Int) (data : List Txn) (history0 : History) : List Txn × History :=
  let r := collectLoop now data [] history0
  (r.1, cleanup now r.2)

/-- `load_history`: absent file → `{}`; otherwise `content = f.read().strip()`;
empty → `{}`; else `json.loads(content)` with `(JSONDecodeError, ValueError)`
caught → `{}`.  `parse` stands for `json.loads`. -/
def load_history (file : Option String) (parse : String → Option History) : History :=
  match file with
  | none => []
  | some raw =>
    let content := raw.trim
    if content = "" then []
    else
      match parse content with
      | some h => h
      | none => []

/-- `get_insider_transactions` retry loop: up to `max_retries = 3` attempts;
a 429 sleeps and retries, any other failure returns `None` at once, and
falling out of the loop returns `None`.  `α` is the parsed JSON body. -/
def get_insider_transactions_aux {α : Type} (responses : Nat → ApiResult α) :
    Nat → Nat → Option α
  | 0, _ => none
  | remaining + 1, attempt =>
    match responses attempt with
    | .success v => some v
    | .rateLimited => get_insider_transactions_aux responses remaining (attempt + 1)
    | .httpError => none
    | .requestError => none

def get_insider_transactions {α : Type} (responses : Nat → ApiResult α) : Option α :=
  get_insider_transactions_aux responses 3 0

/-- The guard `if data and 'data' in data:` around the per-symbol inner
loop.  `fetched = none` is a failed fetch (`None`); `some none` is a
response without a usable `data` array; `some (some l)` carries the
transaction list. -/
def processSymbol (now : Int) (fetched : Option (Option (List Txn))) (acc : List Txn)
    (history : History) : List Txn × History :=
  match fetched with
  | some (some l) => collectLoop now l acc history
  | _ => (acc, history)

/-- Notifications carried by a run for a given EventKey: how many entries
of the outgoing `new_transactions` list have that id. -/
def keyCount (k : String) (l : List Txn) : Nat :=
  l.countP (fun u => create_transaction_id u == k)

/-- A concrete significant transaction (zero reported price, 20 000-share
change, so it passes the share threshold). -/
def txW : Txn :=
  { symbol := "NVDA", name := "Jane Smith", transactionDate := "2024-05-01",
    share := 120000, transactionCode := "S", filingDate := "2024-05-03",
    change := -20000, transactionPrice := 0 }

/-- A transaction as first recorded in history. -/
def txOld : Txn :=
  { symbol := "AMD", name := "J Doe", transactionDate := "2024-04-01",
    share := 9000, transactionCode := "S", filingDate := "2024-04-02",
    change := -15000, transactionPrice := 0 }

/-- The same logical event re-fetched later: identical EventKey fields,
different `filingDate` payload field. -/
def txNew : Txn :=
  { symbol := "AMD", name := "J Doe", transactionDate := "2024-04-01",
    share := 9000, transactionCode := "S", filingDate := "2024-04-09",
    change := -15000, transactionPrice := 0 }

def c2hist : History := [(create_transaction_id txOld, { first_seen := 5, transaction := txOld })]

/-- An event worth $50 000 spread over 15 000 shares (price 10/3). -/
def tx50k15k : Txn :=
  { symbol := "TSLA", name := "A Buyer", transactionDate := "2024-03-01",
    share := 50000, transactionCode := "P", filingDate := "2024-03-02",
    change := 15000, transactionPrice := 10 / 3 }

/-- An event worth $50 000 spread over 5 000 shares (price 10). -/
def tx50k5k : Txn :=
  { symbol := "TSLA", name := "A Buyer", transactionDate := "2024-03-01",
    share := 50000, transactionCode := "P", filingDate := "2024-03-02",
    change := 5000, transactionPrice := 10 }

/-- History carrying one record past the 30-day horizon and one inside it
(relative to run time 0). -/
def h9old : History :=
  [("XOM_Old Exec_2024-01-01_1000_S", { first_seen := -3000000, transaction := txOld }),
   ("KO_Recent Exec_2024-09-01_1000_P", { first_seen := -1000, transaction := txNew })]

end InsiderTx

/-! ### Batching: `for i in range(0, len(embeds), 10): batch = embeds[i:i+10]` -/

/-- Fuel-indexed batching helper (`fuel ≥ l.length` makes it total). -/
def chunks10Aux {γ : Type} : Nat → List γ → List (List γ)
  | 0, _ => []
  | _, [] => []
  | fuel + 1, l@(_ :: _) => l.take 10 :: chunks10Aux fuel (l.drop 10)

/-- The batches of at most 10 payloads every `send_discord_alert` variant
walks over. -/
def chunks10 {γ : Type} (l : List γ) : List (List γ) := chunks10Aux l.length l

/-! ### scripts/eps_surprises_alert.py -/

namespace EpsSurprises

/-- What `send_discord_alert` reports: the `total_sent` / `total_failed`
counters, plus (for the verification) the number of POSTs issued per
batch, in batch order. -/
structure DeliveryReport where
  total_sent : Nat
  total_failed : Nat
  attempts : List Nat
deriving DecidableEq, Repr

/-- The batch loop of `send_discord_alert`: each batch is POSTed; success
adds to `total_sent`; an HTTP 429 adds to `total_failed`, waits 2s and
retries that batch exactly once (on retry success the counts move back to
sent); any other failure adds to `total_failed`; the loop always
continues to the next batch.  The counters are accumulated here on the
recursive result instead of left-to-right, which yields the same totals;
`attempts` stays in batch order. -/
def sendBatches {γ : Type} (webhook : Nat → Nat → WebhookResult) :
    Nat → List (List γ) → DeliveryReport
  | _, [] => ⟨0, 0, []⟩
  | i, batch :: rest =>
    let r := sendBatches webhook (i + 1) rest
    match webhook i 0 with
    | .ok => ⟨r.total_sent + batch.length, r.total_failed, 1 :: r.attempts⟩
    | .rateLimited =>
      match webhook i 1 with
      | .ok => ⟨r.total_sent + batch.length, r.total_failed, 2 :: r.attempts⟩
      | _ => ⟨r.total_sent, r.total_failed + batch.length, 2 :: r.attempts⟩
    | .httpError => ⟨r.total_sent, r.total_failed + batch.length, 1 :: r.attempts⟩
    | .requestError => ⟨r.total_sent, r.total_failed + batch.length, 1 :: r.attempts⟩

/-- `send_discord_alert` of scripts/eps_surprises_alert.py (the variant
with per-batch 429 retry and aggregate reporting). -/
def send_discord_alert {γ : Type} (webhook : Nat → Nat → WebhookResult) (embeds : List γ) :
    DeliveryReport :=
  sendBatches webhook 0 (chunks10 embeds)

/-- Webhook behaviour of the spec's scenario: HTTP 429 on the first POST
of the second batch (index 1), success everywhere else. -/
def ex429Webhook : Nat → Nat → WebhookResult :=
  fun i a => if i = 1 ∧ a = 0 then WebhookResult.rateLimited else WebhookResult.ok

end EpsSurprises

/-! ### src/insider_sentiment_alert.py (the root-level, older variant) -/

namespace RootSentiment

/-- `load_history` of the root-level script: an existing file goes
straight to `json.load` with *no* exception handler, so unparseable (or
empty) content raises — modelled as `Except.error`.  Only an absent file
yields `{}`.  `parse` stands for `json.load`. -/
def load_history {β : Type} (file : Option String)
    (parse : String → Option (List (String × β))) : Except String (List (String × β)) :=
  match file with
  | none => .ok []
  | some raw =>
    match parse raw with
    | some h => .ok h
    | none => .error "json.load raised JSONDecodeError"

/-- `json.load` on content that is not valid JSON: no parse result. -/
def failingParse : String → Option (List (String × Nat)) := fun _ => none

/-- `send_discord_alert` of the root-level script (also the shape used by
scripts/insider_transactions_alert.py and
scripts/insider_sentiment_alert.py): batches of 10, but the `except`
branch does `return False` — the first failing batch aborts the loop, no
retry, no counts.  Returns the boolean result and the number of batches
actually attempted. -/
def send_discord_alert_go {γ : Type} (webhook : Nat → WebhookResult) :
    Nat → List (List γ) → Bool × Nat
  | _, [] => (true, 0)
  | i, _ :: rest =>
    match webhook i with
    | .ok =>
      let r := send_discord_alert_go webhook (i + 1) rest
      (r.1, r.2 + 1)
    | _ => (false, 1)

def send_discord_alert {γ : Type} (webhook : Nat → WebhookResult) (embeds : List γ) :
    Bool × Nat :=
  send_discord_alert_go webhook 0 (chunks10 embeds)

end RootSentiment

/-! ### scripts/ipo_calendar_alert.py -/

namespace IpoCal

/-- `get_ipo_calendar` retry loop: up to 3 attempts; a 429 sleeps and
retries; any other failure returns `[]`; a success returns
`r.json().get("ipoCalendar", [])`; and falling out of the loop after the
retries are exhausted *also* returns `[]`. -/
def get_ipo_calendar_aux {α : Type} (responses : Nat → ApiResult (List α)) :
    Nat → Nat → List α
  | 0, _ => []
  | remaining + 1, attempt =>
    match responses attempt with
    | .success v => v
    | .rateLimited => get_ipo_calendar_aux responses remaining (attempt + 1)
    | .httpError => []
    | .requestError => []

def get_ipo_calendar {α : Type} (responses : Nat → ApiResult (List α)) : List α :=
  get_ipo_calendar_aux responses 3 0

end IpoCal

/-- `json.loads` stub used to instantiate the C4 witness: fails on
whatever it is given. -/
def jsonFailParse : String → Option InsiderTx.History := fun _ => none

/-! ### Time-windowed re-check mode -/

namespace Recheck

/-- Modelled from the spec: the HistoryRecord of a time-windowed monitor
(§3: `first_seen`, an `alerted` boolean and an `alerted_at` timestamp).
The re-check monitor's source file is missing from the sources (the file
named `eps_surprises_alert.py` holds an IPO-calendar script), so this
mode is embedded from the spec's words. -/
structure RecheckRecord where
  first_seen : Int
  alerted : Bool
  alerted_at : Option Int
deriving DecidableEq, Repr

/-- Modelled from the spec: the 48-hour re-check window, in seconds. -/
def RECHECK_WINDOW_SECONDS : Int := 48 * 3600

/-- Modelled from the spec: `shouldAlert` in time-windowed mode — alert
iff (key absent AND significant) OR (key present, not yet `alerted`,
elapsed time since `first_seen` within the window, AND significant). -/
def shouldAlert (rec : Option RecheckRecord) (now : Int) (significant : Bool) : Bool :=
  match rec with
  | none => significant
  | some r =>
    !r.alerted && decide (now - r.first_seen ≤ RECHECK_WINDOW_SECONDS) && significant

/-- Modelled from the spec: one observation of a key — decide the alert,
then update the record (`first_seen` set once; `alerted` becomes true
when an alert fires and then stays true; `alerted_at` stamped on alert). -/
def observe (rec : Option RecheckRecord) (now : Int) (significant : Bool) :
    Bool × RecheckRecord :=
  let alert := shouldAlert rec now significant
  match rec with
  | none =>
    (alert, { first_seen := now, alerted := alert,
              alerted_at := if alert then some now else none })
  | some r =>
    (alert, { first_seen := r.first_seen, alerted := r.alerted || alert,
              alerted_at := if alert then some now else r.alerted_at })

/-- Observing the same key over a sequence of later runs
(`(now, significant)` per run), threading the record through. -/
def observeRuns (r : RecheckRecord) : List (Int × Bool) → List Bool × RecheckRecord
  | [] => ([], r)
  | (now, significant) :: rest =>
    let step := observe (some r) now significant
    let tail := observeRuns step.2 rest
    (step.1 :: tail.1, tail.2)

end Recheck

/-- A record first seen 100 hours ago (relative to run time 0), not yet
alerted. -/
def rec100h : Recheck.RecheckRecord :=
  { first_seen := -360000, alerted := false, alerted_at := none }

/-! ### src/discord_alerts.py (`monitor_insider_activity`, Form 4 phase) -/

namespace DiscordAlerts

/-- One Finnhub insider trade as read by `monitor_insider_activity`
(`symbol` is the watchlist symbol the trade was fetched for, which is
also the `symbol` field of the returned record). -/
structure Trade where
  symbol : String
  name : String
  transactionDate : String
  filingDate : String
  change : Int
  share : Int
  transactionPrice : ℚ
  transactionCode : String
deriving DecidableEq, Repr

def MIN_AMOUNT : ℚ := 100000

/-- `trade_id = f"{symbol}_{name}_{transaction_date}_{shares}_{change}"`
with `shares = abs(change)`. -/
def trade_id (t : Trade) : String :=
  t.symbol ++ "_" ++ t.name ++ "_" ++ t.transactionDate ++ "_" ++ toString t.change.natAbs
    ++ "_" ++ toString t.change

/-- `value = shares * transaction_price if transaction_price > 0 else 0`. -/
def tradeValue (t : Trade) : ℚ :=
  if t.transactionPrice > 0 then (t.change.natAbs : ℚ) * t.transactionPrice else 0

/-- The collection loop over the fetched trades (per-symbol loops
concatenated, in watchlist order): skip if already seen
(`trade_id in seen_trades`), skip if `0 < value < MIN_AMOUNT`, otherwise
add to `all_new_trades`.  `seen_trades` is not modified during
collection. -/
def collectNewTrades (seen_trades : List String) : List Trade → List Trade
  | [] => []
  | t :: rest =>
    if trade_id t ∈ seen_trades then collectNewTrades seen_trades rest
    else if 0 < tradeValue t ∧ tradeValue t < MIN_AMOUNT then collectNewTrades seen_trades rest
    else t :: collectNewTrades seen_trades rest

/-- The descending filing-date order used by
`all_new_trades.sort(key=lambda x: x['filing_date'], reverse=True)`. -/
def FilingGe (a b : Trade) : Prop := strLe b.filingDate a.filingDate = true

instance : DecidableRel FilingGe := fun _ _ => inferInstanceAs (Decidable (_ = true))

/-- The Form 4 phase of `monitor_insider_activity`: collect the new
trades, sort them most-recent-filing-date-first (a stable sort, like
Python's), send at most the top 5 (first component), and mark *all* new
trades seen (second component; the per-send `seen_trades.add` is
subsumed by the final `for trade_data in all_new_trades` loop).  The
independent Form 8-K phase only touches `seen_8k` and is not modelled. -/
def monitor_insider_activity (seen_trades : List String) (data : List Trade) :
    List Trade × List String :=
  let all_new_trades := collectNewTrades seen_trades data
  let sorted := all_new_trades.insertionSort FilingGe
  let top_5_trades := sorted.take 5
  (top_5_trades, seen_trades ++ all_new_trades.map trade_id)

end DiscordAlerts

/-- Two concrete zero-price trades (both pass the value gate). -/
def trA : DiscordAlerts.Trade :=
  { symbol := "MSFT", name := "CEO One", transactionDate := "2024-06-01",
    filingDate := "2024-06-03", change := 500, share := 10000,
    transactionPrice := 0, transactionCode := "A" }

def trB : DiscordAlerts.Trade :=
  { symbol := "NVDA", name := "CFO Two", transactionDate := "2024-06-02",
    filingDate := "2024-06-05", change := -300, share := 2000,
    transactionPrice := 0, transactionCode := "S" }

/-- A 3-share trade with no reported price. -/
def trTiny : DiscordAlerts.Trade :=
  { symbol := "KO", name := "Dir Three", transactionDate := "2024-07-01",
    filingDate := "2024-07-02", change := 3, share := 100,
    transactionPrice := 0, transactionCode := "P" }

/-! # Lemmas and per-claim theorems -/

/-! ### Association-list lemmas (Python dict as `List (key × value)`) -/

theorem alist_lookup_append_of_some {α β : Type} [BEq α] {l₁ l₂ : List (α × β)} {k : α} {r : β}
    (h : l₁.lookup k = some r) : (l₁ ++ l₂).lookup k = some r := by
  induction l₁ with
  | nil => simp [List.lookup] at h
  | cons p rest ih =>
    rcases p with ⟨a, b⟩
    rw [List.cons_append, List.lookup_cons] at *
    cases hk : k == a with
    | true => simpa [hk] using h
    | false =>
      simp only [hk] at h ⊢
      exact ih h

theorem alist_lookup_append_of_none {α β : Type} [BEq α] {l₁ : List (α × β)} {k : α}
    (h : l₁.lookup k = none) (l₂ : List (α × β)) : (l₁ ++ l₂).lookup k = l₂.lookup k := by
  induction l₁ with
  | nil => simp
  | cons p rest ih =>
    rcases p with ⟨a, b⟩
    rw [List.lookup_cons] at h
    rw [List.cons_append, List.lookup_cons]
    cases hk : k == a with
    | true => simp [hk] at h
    | false =>
      simp only [hk] at h ⊢
      exact ih h

theorem alist_mem_of_lookup_eq_some {α β : Type} [BEq α] [LawfulBEq α]
    {l : List (α × β)} {k : α} {r : β} (h : l.lookup k = some r) : (k, r) ∈ l := by
  induction l with
  | nil => simp [List.lookup] at h
  | cons p rest ih =>
    rcases p with ⟨a, b⟩
    rw [List.lookup_cons] at h
    cases hk : k == a with
    | true =>
      simp only [hk] at h
      cases h
      have : k = a := eq_of_beq hk
      subst this
      exact List.mem_cons_self _ _
    | false =>
      simp only [hk] at h
      exact List.mem_cons_of_mem _ (ih h)

theorem alist_lookup_isSome_of_mem {α β : Type} [BEq α] [LawfulBEq α]
    {l : List (α × β)} {k : α} {r : β} (h : (k, r) ∈ l) : (l.lookup k).isSome := by
  induction l with
  | nil => simp at h
  | cons p rest ih =>
    rcases p with ⟨a, b⟩
    rw [List.lookup_cons]
    cases hk : k == a with
    | true => simp
    | false =>
      simp only [hk]
      rcases List.mem_cons.mp h with heq | hm
      · cases heq
        simp at hk
      · exact ih hm

theorem alist_lookup_singleton_self {α β : Type} [BEq α] [LawfulBEq α] (k : α) (r : β) :
    ([(k, r)] : List (α × β)).lookup k = some r := by
  rw [List.lookup_cons]
  simp

theorem alist_lookup_singleton_ne {α β : Type} [BEq α] [LawfulBEq α] {k a : α} (h : k ≠ a)
    (r : β) : ([(a, r)] : List (α × β)).lookup k = none := by
  rw [List.lookup_cons]
  have : (k == a) = false := beq_eq_false_iff_ne.mpr h
  simp [this, List.lookup]

/-! ### The lexicographic order is total and transitive -/

theorem charListLe_total : ∀ a b : List Char, charListLe a b = true ∨ charListLe b a = true
  | [], _ => Or.inl rfl
  | _ :: _, [] => Or.inr rfl
  | c :: cs, d :: ds => by
    simp only [charListLe]
    rcases Nat.lt_trichotomy c.toNat d.toNat with h | h | h
    · left
      simp [h]
    · have h1 : ¬ c.toNat < d.toNat := by omega
      have h2 : ¬ d.toNat < c.toNat := by omega
      simp only [h1, h2, if_false]
      exact charListLe_total cs ds
    · right
      simp [h]

theorem charListLe_trans :
    ∀ a b c : List Char, charListLe a b = true → charListLe b c = true → charListLe a c = true
  | [], _, _ => by simp [charListLe]
  | x :: xs, [], _ => by simp [charListLe]
  | x :: xs, y :: ys, [] => by simp [charListLe]
  | x :: xs, y :: ys, z :: zs => by
    simp only [charListLe]
    intro h1 h2
    rcases Nat.lt_trichotomy x.toNat y.toNat with hxy | hxy | hxy
    · rcases Nat.lt_trichotomy y.toNat z.toNat with hyz | hyz | hyz
      · simp [show x.toNat < z.toNat by omega]
      · simp [show x.toNat < z.toNat by omega]
      · exfalso
        simp [show ¬ y.toNat < z.toNat by omega, show z.toNat < y.toNat from hyz] at h2
    · rcases Nat.lt_trichotomy y.toNat z.toNat with hyz | hyz | hyz
      · simp [show x.toNat < z.toNat by omega]
      · have hxz1 : ¬ x.toNat < z.toNat := by omega
        have hxz2 : ¬ z.toNat < x.toNat := by omega
        simp only [hxz1, hxz2, if_false]
        simp only [show ¬ x.toNat < y.toNat by omega, show ¬ y.toNat < x.toNat by omega,
          if_false] at h1
        simp only [show ¬ y.toNat < z.toNat by omega, show ¬ z.toNat < y.toNat by omega,
          if_false] at h2
        exact charListLe_trans xs ys zs h1 h2
      · exfalso
        simp [show ¬ y.toNat < z.toNat by omega, hyz] at h2
    · exfalso
      simp [show ¬ x.toNat < y.toNat by omega, hxy] at h1

theorem strLe_total (a b : String) : strLe a b = true ∨ strLe b a = true :=
  charListLe_total a.toList b.toList

theorem strLe_trans {a b c : String} (h1 : strLe a b = true) (h2 : strLe b c = true) :
    strLe a c = true :=
  charListLe_trans a.toList b.toList c.toList h1 h2

/-! ### Invariants of the insider-transactions pipeline (C1, C2, C7, C9) -/

namespace InsiderTx

/-- A pre-existing history entry is never touched by the loop: the write
happens only in the `not in history` branch. -/
theorem collectLoop_lookup_of_some (now : Int) (data : List Txn) (acc : List Txn)
    (history : History) {k : String} {r : HistRec} (h : history.lookup k = some r) :
    ((collectLoop now data acc history).2).lookup k = some r := by
  induction data generalizing acc history with
  | nil => simpa [collectLoop] using h
  | cons t rest ih =>
    simp only [collectLoop]
    split
    · exact ih _ _ h
    · exact ih _ _ (alist_lookup_append_of_some h)

/-- A key not in the incoming history ends the loop bound to the first
fetched transaction carrying it (with `first_seen = now`), or stays
absent if no fetched transaction carries it. -/
theorem collectLoop_lookup_of_none (now : Int) (data : List Txn) (acc : List Txn)
    (history : History) {k : String} (h : history.lookup k = none) :
    ((collectLoop now data acc history).2).lookup k
      = (data.find? (fun u => create_transaction_id u == k)).map
          (fun u => ({ first_seen := now, transaction := u } : HistRec)) := by
  induction data generalizing acc history with
  | nil => simpa [collectLoop] using h
  | cons t rest ih =>
    simp only [collectLoop, List.find?_cons]
    by_cases hk : create_transaction_id t = k
    · subst hk
      rw [h]
      simp only [beq_self_eq_true]
      have hnew : (history ++ [(create_transaction_id t, ({ first_seen := now, transaction := t } : HistRec))]).lookup
          (create_transaction_id t) = some ⟨now, t⟩ := by
        rw [alist_lookup_append_of_none h]
        exact alist_lookup_singleton_self _ _
      exact collectLoop_lookup_of_some now rest _ _ hnew
    · have hbeq : (create_transaction_id t == k) = false := beq_eq_false_iff_ne.mpr hk
      simp only [hbeq]
      split
      · exact ih _ _ h
      · apply ih
        rw [alist_lookup_append_of_none h]
        exact alist_lookup_singleton_ne (Ne.symm hk) _

/-- Once a key is present in history, the loop adds no notification for
it: the accumulator count for that key is frozen. -/
theorem collectLoop_count_of_isSome (now : Int) (data : List Txn) (acc : List Txn)
    (history : History) {k : String} (h : (history.lookup k).isSome) :
    keyCount k (collectLoop now data acc history).1 = keyCount k acc := by
  induction data generalizing acc history with
  | nil => rfl
  | cons t rest ih =>
    simp only [collectLoop]
    split
    · exact ih _ _ h
    · rename_i hl
      have hk : (create_transaction_id t == k) = false := by
        cases hbeq : create_transaction_id t == k with
        | false => rfl
        | true =>
          have : create_transaction_id t = k := eq_of_beq hbeq
          rw [← this, hl] at h
          simp at h
      obtain ⟨r, hr⟩ := Option.isSome_iff_exists.mp h
      have h' : ((history ++ [(create_transaction_id t, ({ first_seen := now, transaction := t } : HistRec))]).lookup k).isSome := by
        rw [alist_lookup_append_of_some hr]
        rfl
      rw [ih _ _ h']
      by_cases hs : is_significant_transaction t <;>
        simp [hs, keyCount, List.countP_append, List.countP_cons, hk]

/-- A significant transaction whose key is fresh (and unique to it within
the fetch) contributes exactly one notification. -/
theorem collectLoop_count_fresh (now : Int) (data : List Txn) (acc : List Txn)
    (history : History) {t : Txn}
    (hfresh : history.lookup (create_transaction_id t) = none)
    (ht : t ∈ data)
    (hsig : is_significant_transaction t = true)
    (huniq : ∀ u ∈ data, create_transaction_id u = create_transaction_id t → u = t) :
    keyCount (create_transaction_id t) (collectLoop now data acc history).1
      = keyCount (create_transaction_id t) acc + 1 := by
  induction data generalizing acc history with
  | nil => cases ht
  | cons u rest ih =>
    simp only [collectLoop]
    by_cases hk : create_transaction_id u = create_transaction_id t
    · have hut : u = t := huniq u (List.mem_cons_self _ _) hk
      subst hut
      rw [hfresh]
      simp only [hsig, if_true]
      have hnew : ((history ++ [(create_transaction_id u, ({ first_seen := now, transaction := u } : HistRec))]).lookup
          (create_transaction_id u)).isSome := by
        rw [alist_lookup_append_of_none hfresh, alist_lookup_singleton_self]
        rfl
      rw [collectLoop_count_of_isSome now rest _ _ hnew]
      simp [keyCount, List.countP_append, List.countP_cons]
    · have hut : t ∈ rest := by
        rcases List.mem_cons.mp ht with he | hm
        · exact absurd (show create_transaction_id u = create_transaction_id t by rw [he]) hk
        · exact hm
      have huniq' : ∀ v ∈ rest, create_transaction_id v = create_transaction_id t → v = t :=
        fun v hv hvk => huniq v (List.mem_cons_of_mem _ hv) hvk
      have hbeq : (create_transaction_id u == create_transaction_id t) = false :=
        beq_eq_false_iff_ne.mpr hk
      split
      · exact ih _ _ hfresh hut huniq'
      · have hfresh' : ((history ++ [(create_transaction_id u, ({ first_seen := now, transaction := u } : HistRec))]).lookup
            (create_transaction_id t)) = none := by
          rw [alist_lookup_append_of_none hfresh]
          exact alist_lookup_singleton_ne (Ne.symm hk) _
        rw [ih _ _ hfresh' hut huniq']
        by_cases hs : is_significant_transaction u <;>
          simp [hs, keyCount, List.countP_append, List.countP_cons, hbeq]

/-- The record inserted for a fresh key survives the end-of-run cleanup:
its `first_seen` is the run's own `now`, inside the 30-day horizon. -/
theorem runOnce_lookup_isSome_of_fresh (now : Int) (data : List Txn) (history0 : History)
    {t : Txn} (hfresh : history0.lookup (create_transaction_id t) = none) (ht : t ∈ data) :
    (((runOnce now data history0).2).lookup (create_transaction_id t)).isSome := by
  have hfind : (data.find? (fun u => create_transaction_id u == create_transaction_id t)).isSome := by
    rw [List.find?_isSome]
    exact ⟨t, ht, by simp⟩
  obtain ⟨t0, ht0⟩ := Option.isSome_iff_exists.mp hfind
  have hlook : ((collectLoop now data [] history0).2).lookup (create_transaction_id t)
      = some { first_seen := now, transaction := t0 } := by
    rw [collectLoop_lookup_of_none now data [] history0 hfresh, ht0]
    rfl
  have hmem := alist_mem_of_lookup_eq_some hlook
  have hkeep : (create_transaction_id t, ({ first_seen := now, transaction := t0 } : HistRec))
      ∈ cleanup now (collectLoop now data [] history0).2 := by
    apply List.mem_filter.mpr
    refine ⟨hmem, ?_⟩
    simp only [decide_eq_true_eq, RETENTION_SECONDS]
    omega
  exact alist_lookup_isSome_of_mem hkeep

/-- C1.  Dedup idempotence in simple mode: with the history snapshot
persisted between two runs over identical fetched data, a significant
transaction with a fresh EventKey is notified exactly once by the first
run, and the second run notifies it zero times (its key was inserted into
history by the first run, so the membership test skips it).  The
key-uniqueness hypothesis is the spec's EventKey invariant (two events
with equal key are the same observation). -/
theorem C1_dedup_idempotence (now1 now2 : Int) (data : List Txn) (history0 : History)
    (t : Txn)
    (ht : t ∈ data)
    (hsig : is_significant_transaction t = true)
    (hfresh : history0.lookup (create_transaction_id t) = none)
    (huniq : ∀ u ∈ data, create_transaction_id u = create_transaction_id t → u = t) :
    keyCount (create_transaction_id t) (runOnce now1 data history0).1 = 1 ∧
    keyCount (create_transaction_id t)
      (runOnce now2 data (runOnce now1 data history0).2).1 = 0 := by
  constructor
  · have h := collectLoop_count_fresh now1 data [] history0 hfresh ht hsig huniq
    simpa [runOnce, keyCount] using h
  · have hs := runOnce_lookup_isSome_of_fresh now1 data history0 hfresh ht
    have h := collectLoop_count_of_isSome now2 data [] ((runOnce now1 data history0).2) hs
    simpa [runOnce, keyCount] using h

/-- Witness for C1 at a concrete input. -/
theorem C1_dedup_idempotence_witness :
    txW ∈ [txW] ∧ is_significant_transaction txW = true ∧
    ([] : History).lookup (create_transaction_id txW) = none ∧
    keyCount (create_transaction_id txW) (runOnce 0 [txW] []).1 = 1 ∧
    keyCount (create_transaction_id txW) (runOnce 60 [txW] (runOnce 0 [txW] []).2).1 = 0 :=
  ⟨by decide, by decide, by decide,
    (C1_dedup_idempotence 0 60 [txW] [] txW (by decide) (by decide) (by decide) (by decide)).1,
    (C1_dedup_idempotence 0 60 [txW] [] txW (by decide) (by decide) (by decide) (by decide)).2⟩

/-- C2 (amended).  The loop writes a HistoryRecord only for keys not yet
in history: a fresh key gets `first_seen = now` and the first fetched
payload with that key, while a key already present keeps its record —
`first_seen` *and* stored payload — entirely unchanged (the stored
payload is *not* refreshed to the latest fetch).  `first_seen` is set
once and never modified. -/
theorem C2_history_upsert (now : Int) (data : List Txn) (history : History) (k : String) :
    (∀ r, history.lookup k = some r → ((collectLoop now data [] history).2).lookup k = some r) ∧
    (history.lookup k = none →
      ((collectLoop now data [] history).2).lookup k
        = (data.find? (fun u => create_transaction_id u == k)).map
            (fun u => ({ first_seen := now, transaction := u } : HistRec))) :=
  ⟨fun _ hr => collectLoop_lookup_of_some now data [] history hr,
   fun hn => collectLoop_lookup_of_none now data [] history hn⟩

/-- Counterexample to C2 as stated: after a run whose fetch carries the
updated payload `txNew` for an already-present key, the stored payload is
still the old one, not the most recently fetched one. -/
theorem C2_counterexample :
    (((runOnce 10 [txNew] c2hist).2.lookup (create_transaction_id txNew)).map
        HistRec.transaction) = some txOld ∧ txOld ≠ txNew := by
  constructor
  · decide
  · decide

/-- Witness for C2 (amended) at a concrete input: present key unchanged,
fresh key inserted with `first_seen = now` and the fetched payload. -/
theorem C2_history_upsert_witness :
    c2hist.lookup (create_transaction_id txOld) = some { first_seen := 5, transaction := txOld } ∧
    ((collectLoop 10 [txNew] [] c2hist).2).lookup (create_transaction_id txOld)
      = some { first_seen := 5, transaction := txOld } ∧
    c2hist.lookup (create_transaction_id txW) = none ∧
    ((collectLoop 10 [txW] [] c2hist).2).lookup (create_transaction_id txW)
      = some { first_seen := 10, transaction := txW } :=
  ⟨by decide,
   (C2_history_upsert 10 [txNew] c2hist (create_transaction_id txOld)).1 _ (by decide),
   by decide,
   by
     rw [(C2_history_upsert 10 [txW] c2hist (create_transaction_id txW)).2 (by decide)]
     decide⟩

/-- C7.  `is_significant_transaction` is exactly the OR of the two
thresholds — dollar value `|change * transactionPrice|` at least $100 000,
or `|change|` at least 10 000 shares — and it is a pure function of the
transaction record alone (it takes no history argument).  The $50 000 /
15 000-share event qualifies; the $50 000 / 5 000-share event does not. -/
theorem C7_or_threshold :
    (∀ t : Txn, is_significant_transaction t = true ↔
      |(t.change : ℚ) * t.transactionPrice| ≥ 100000 ∨ |t.change| ≥ 10000) ∧
    is_significant_transaction tx50k15k = true ∧
    is_significant_transaction tx50k5k = false := by
  refine ⟨fun t => ?_, ?_, ?_⟩
  · simp only [is_significant_transaction, MIN_TRANSACTION_VALUE, MIN_SHARES_CHANGED,
      Bool.or_eq_true, decide_eq_true_eq]
    by_cases hp : t.transactionPrice = 0
    · simp [hp]
    · simp [hp]
  · norm_num [is_significant_transaction, tx50k15k, MIN_TRANSACTION_VALUE, MIN_SHARES_CHANGED]
  · norm_num [is_significant_transaction, tx50k5k, MIN_TRANSACTION_VALUE, MIN_SHARES_CHANGED]

/-- C9.  Eviction invariant: every record in the persisted (post-cleanup)
store has `first_seen` inside the retention horizon, and a key absent
from the persisted store — e.g. one just evicted — is treated as brand
new by a later run: if re-fetched as a significant event it is notified
exactly once. -/
theorem C9_eviction (now : Int) (data : List Txn) (history0 : History) :
    (∀ k r, ((runOnce now data history0).2).lookup k = some r →
        now - RETENTION_SECONDS < r.first_seen) ∧
    (∀ (now2 : Int) (data2 : List Txn) (t : Txn),
        ((runOnce now data history0).2).lookup (create_transaction_id t) = none →
        t ∈ data2 → is_significant_transaction t = true →
        (∀ u ∈ data2, create_transaction_id u = create_transaction_id t → u = t) →
        keyCount (create_transaction_id t)
          (runOnce now2 data2 (runOnce now data history0).2).1 = 1) := by
  constructor
  · intro k r h
    have hmem := alist_mem_of_lookup_eq_some h
    simp only [runOnce, cleanup] at hmem
    have := (List.mem_filter.mp hmem).2
    simpa using this
  · intro now2 data2 t hfresh ht hsig huniq
    have h := collectLoop_count_fresh now2 data2 [] ((runOnce now data history0).2)
      hfresh ht hsig huniq
    simpa [runOnce, keyCount] using h

/-- Witness for C9 at a concrete input: after a run at time 0 the old
record is evicted and the young one kept within the horizon; the evicted
key count: a fresh significant re-fetch alerts exactly once. -/
theorem C9_eviction_witness :
    ((runOnce 0 [] h9old).2).lookup "XOM_Old Exec_2024-01-01_1000_S" = none ∧
    ((runOnce 0 [] h9old).2).lookup "KO_Recent Exec_2024-09-01_1000_P"
      = some { first_seen := -1000, transaction := txNew } ∧
    (0 : Int) - RETENTION_SECONDS < -1000 ∧
    ((runOnce 0 [] h9old).2).lookup (create_transaction_id txW) = none ∧
    keyCount (create_transaction_id txW) (runOnce 1 [txW] (runOnce 0 [] h9old).2).1 = 1 :=
  ⟨by decide, by decide,
   (C9_eviction 0 [] h9old).1 "KO_Recent Exec_2024-09-01_1000_P"
     { first_seen := -1000, transaction := txNew } (by decide),
   by decide,
   (C9_eviction 0 [] h9old).2 1 [txW] txW (by decide) (by decide) (by decide) (by decide)⟩

end InsiderTx

/-! ### Batching and delivery (C3) -/

theorem chunks10Aux_sum {γ : Type} :
    ∀ (fuel : Nat) (l : List γ), l.length ≤ fuel →
      ((chunks10Aux fuel l).map List.length).sum = l.length
  | 0, l, h => by
    have : l = [] := List.eq_nil_of_length_eq_zero (Nat.le_zero.mp h)
    subst this
    rfl
  | fuel + 1, [], _ => rfl
  | fuel + 1, x :: xs, h => by
    simp only [chunks10Aux, List.map_cons, List.sum_cons]
    have hd : (List.drop 10 (x :: xs)).length ≤ fuel := by
      simp only [List.length_drop, List.length_cons]
      simp only [List.length_cons] at h
      omega
    rw [chunks10Aux_sum fuel _ hd]
    simp only [List.length_take, List.length_drop, List.length_cons]
    omega

theorem chunks10Aux_length {γ : Type} :
    ∀ (fuel : Nat) (l : List γ), l.length ≤ fuel →
      (chunks10Aux fuel l).length = (l.length + 9) / 10
  | 0, l, h => by
    have : l = [] := List.eq_nil_of_length_eq_zero (Nat.le_zero.mp h)
    subst this
    simp [chunks10Aux]
  | fuel + 1, [], _ => by simp [chunks10Aux]
  | fuel + 1, x :: xs, h => by
    simp only [chunks10Aux, List.length_cons]
    have hd : (List.drop 10 (x :: xs)).length ≤ fuel := by
      simp only [List.length_drop, List.length_cons]
      simp only [List.length_cons] at h
      omega
    rw [chunks10Aux_length fuel _ hd]
    simp only [List.length_drop, List.length_cons]
    omega

theorem chunks10_sum {γ : Type} (l : List γ) :
    ((chunks10 l).map List.length).sum = l.length :=
  chunks10Aux_sum l.length l le_rfl

theorem chunks10_length {γ : Type} (l : List γ) :
    (chunks10 l).length = (l.length + 9) / 10 :=
  chunks10Aux_length l.length l le_rfl

namespace EpsSurprises

theorem sendBatches_attempts {γ : Type} (webhook : Nat → Nat → WebhookResult) :
    ∀ (bs : List (List γ)) (i : Nat),
      (sendBatches webhook i bs).attempts
        = (List.range' i bs.length).map
            (fun j => if webhook j 0 = WebhookResult.rateLimited then 2 else 1) := by
  intro bs
  induction bs with
  | nil => intro i; rfl
  | cons b rest ih =>
    intro i
    simp only [sendBatches, List.length_cons, List.range'_succ, List.map_cons]
    cases hw : webhook i 0 with
    | ok => simp [hw, ih]
    | rateLimited =>
      cases hw1 : webhook i 1 with
      | ok => simp [hw, ih]
      | rateLimited => simp [hw, ih]
      | httpError => simp [hw, ih]
      | requestError => simp [hw, ih]
    | httpError => simp [hw, ih]
    | requestError => simp [hw, ih]

theorem sendBatches_total {γ : Type} (webhook : Nat → Nat → WebhookResult) :
    ∀ (bs : List (List γ)) (i : Nat),
      (sendBatches webhook i bs).total_sent + (sendBatches webhook i bs).total_failed
        = (bs.map List.length).sum := by
  intro bs
  induction bs with
  | nil => intro i; rfl
  | cons b rest ih =>
    intro i
    simp only [sendBatches, List.map_cons, List.sum_cons]
    cases hw : webhook i 0 with
    | ok => simp only []; have := ih (i + 1); omega
    | rateLimited =>
      cases hw1 : webhook i 1 with
      | ok => simp only []; have := ih (i + 1); omega
      | rateLimited => simp only []; have := ih (i + 1); omega
      | httpError => simp only []; have := ih (i + 1); omega
      | requestError => simp only []; have := ih (i + 1); omega
    | httpError => simp only []; have := ih (i + 1); omega
    | requestError => simp only []; have := ih (i + 1); omega

end EpsSurprises

/-- C3 (amended, holds for the scripts/eps_surprises_alert.py variant).
Batched delivery there is partially failable: one POST attempt is made
for every batch of at most 10 (two attempts exactly when the first got a
429 — the single retry), no failure prevents later batches, the reported
counts always account for every payload (`sent + failed = total`), and on
the spec's 23-payload scenario with a 429-then-success second batch the
report is sent=23, failed=0 with all three batches attempted.  The
root-level `send_discord_alert` does *not* satisfy the claim (see the
counterexample). -/
theorem C3_batched_delivery {γ : Type} (webhook : Nat → Nat → WebhookResult)
    (embeds : List γ) :
    (EpsSurprises.send_discord_alert webhook embeds).attempts
      = (List.range (chunks10 embeds).length).map
          (fun j => if webhook j 0 = WebhookResult.rateLimited then 2 else 1) ∧
    (chunks10 embeds).length = (embeds.length + 9) / 10 ∧
    (EpsSurprises.send_discord_alert webhook embeds).total_sent
        + (EpsSurprises.send_discord_alert webhook embeds).total_failed = embeds.length ∧
    EpsSurprises.send_discord_alert EpsSurprises.ex429Webhook (List.replicate 23 (0 : Nat))
      = ⟨23, 0, [1, 2, 1]⟩ := by
  refine ⟨?_, chunks10_length embeds, ?_, by decide⟩
  · rw [EpsSurprises.send_discord_alert, EpsSurprises.sendBatches_attempts,
      List.range_eq_range']
  · rw [EpsSurprises.send_discord_alert, EpsSurprises.sendBatches_total, chunks10_sum]

/-- Counterexample to C3 as stated: in the root-level
`send_discord_alert` (one of the claim's two cited delivery functions),
11 payloads form 2 batches, but a failure on the first batch returns
`False` right away — only 1 of the 2 batches is ever attempted, and no
sent/failed aggregate exists. -/
theorem C3_counterexample :
    (chunks10 (List.replicate 11 (0 : Nat))).length = 2 ∧
    RootSentiment.send_discord_alert (fun _ => WebhookResult.httpError)
      (List.replicate 11 (0 : Nat)) = (false, 1) := by
  constructor
  · decide
  · decide

/-! ### History loading (C4) and fetch failure (C5) -/

/-- C4 (amended, holds for the scripts variants).  The
scripts/insider_transactions_alert.py loader yields `{}` for an absent
file, for whitespace-only content and for unparseable content — never an
exception — and a run started on the resulting empty store notifies any
significant fetched event exactly once.  The root-level
insider-sentiment loader violates the claim (see the counterexample). -/
theorem C4_load_best_effort (parse : String → Option InsiderTx.History) (raw : String) :
    InsiderTx.load_history none parse = [] ∧
    (raw.trim = "" → InsiderTx.load_history (some raw) parse = []) ∧
    (parse raw.trim = none → InsiderTx.load_history (some raw) parse = []) ∧
    (∀ (file : Option String), InsiderTx.load_history file parse = [] →
      ∀ (now : Int) (data : List InsiderTx.Txn) (t : InsiderTx.Txn), t ∈ data →
        InsiderTx.is_significant_transaction t = true →
        (∀ u ∈ data, InsiderTx.create_transaction_id u = InsiderTx.create_transaction_id t →
          u = t) →
        InsiderTx.keyCount (InsiderTx.create_transaction_id t)
          (InsiderTx.runOnce now data (InsiderTx.load_history file parse)).1 = 1) := by
  refine ⟨rfl, ?_, ?_, ?_⟩
  · intro h
    simp [InsiderTx.load_history, h]
  · intro h
    by_cases he : raw.trim = "" <;> simp [InsiderTx.load_history, he, h]
  · intro file hload now data t ht hsig huniq
    rw [hload]
    have h := InsiderTx.collectLoop_count_fresh now data [] [] rfl ht hsig huniq
    simpa [InsiderTx.runOnce, InsiderTx.keyCount] using h

/-- Counterexample to C4 as stated: the root-level loader raises on
malformed content instead of yielding an empty mapping. -/
theorem C4_counterexample :
    RootSentiment.load_history (some "this is not JSON") RootSentiment.failingParse
      = Except.error "json.load raised JSONDecodeError" := rfl

/-- Witness for C4 (amended) at concrete inputs: unparseable content
loads as `{}`, and a run on that empty store alerts the significant
transaction `txW` exactly once. -/
theorem C4_load_best_effort_witness :
    InsiderTx.load_history (some "garbage") jsonFailParse = [] ∧
    InsiderTx.keyCount (InsiderTx.create_transaction_id InsiderTx.txW)
      (InsiderTx.runOnce 0 [InsiderTx.txW]
        (InsiderTx.load_history (some "garbage") jsonFailParse)).1 = 1 :=
  ⟨(C4_load_best_effort jsonFailParse "garbage").2.2.1 rfl,
   (C4_load_best_effort jsonFailParse "garbage").2.2.2 (some "garbage")
     ((C4_load_best_effort jsonFailParse "garbage").2.2.1 rfl)
     0 [InsiderTx.txW] InsiderTx.txW (by decide) (by decide) (by decide)⟩

/-- C5 (amended, holds for scripts/insider_transactions_alert.py).
`get_insider_transactions` returns `None` when its retries are exhausted
on rate limiting — a value distinct from every successful body, in
particular from an empty-but-successful one — and the caller's guard then
touches neither history nor the notification list.  The IPO-calendar
fetcher violates the claim (see the counterexample). -/
theorem C5_fetch_failure_distinct {α : Type} (responses : Nat → ApiResult α)
    (hrl : ∀ i, responses i = ApiResult.rateLimited) :
    InsiderTx.get_insider_transactions responses = none ∧
    (∀ d : α, InsiderTx.get_insider_transactions (fun _ => ApiResult.success d) = some d) ∧
    (∀ d : α, InsiderTx.get_insider_transactions responses ≠ some d) ∧
    (∀ (now : Int) (acc : List InsiderTx.Txn) (history : InsiderTx.History),
      InsiderTx.processSymbol now none acc history = (acc, history)) := by
  have hnone : InsiderTx.get_insider_transactions responses = none := by
    simp [InsiderTx.get_insider_transactions, InsiderTx.get_insider_transactions_aux,
      hrl 0, hrl 1, hrl 2]
  refine ⟨hnone, fun d => rfl, ?_, fun now acc history => rfl⟩
  intro d
  rw [hnone]
  exact fun h => Option.noConfusion h

/-- Counterexample to C5 as stated: `get_ipo_calendar` returns `[]` both
when all retries are exhausted on 429s and on a successful response with
no IPOs — the two outcomes are the same value, not distinguishable. -/
theorem C5_counterexample :
    IpoCal.get_ipo_calendar (fun _ => (ApiResult.rateLimited : ApiResult (List Nat))) = [] ∧
    IpoCal.get_ipo_calendar (fun _ => ApiResult.success ([] : List Nat)) = [] ∧
    IpoCal.get_ipo_calendar (fun _ => (ApiResult.rateLimited : ApiResult (List Nat)))
      = IpoCal.get_ipo_calendar (fun _ => ApiResult.success ([] : List Nat)) :=
  ⟨rfl, rfl, rfl⟩

/-- Witness for C5 (amended) at a concrete input. -/
theorem C5_fetch_failure_distinct_witness :
    InsiderTx.get_insider_transactions
        (fun _ => (ApiResult.rateLimited : ApiResult (List InsiderTx.Txn))) = none ∧
    InsiderTx.get_insider_transactions
        (fun _ => ApiResult.success ([] : List InsiderTx.Txn)) = some [] ∧
    InsiderTx.processSymbol 0 none [] [] = ([], []) :=
  ⟨(C5_fetch_failure_distinct (fun _ => (ApiResult.rateLimited : ApiResult (List InsiderTx.Txn)))
      (fun _ => rfl)).1,
   (C5_fetch_failure_distinct (fun _ => (ApiResult.rateLimited : ApiResult (List InsiderTx.Txn)))
      (fun _ => rfl)).2.1 [],
   (C5_fetch_failure_distinct (fun _ => (ApiResult.rateLimited : ApiResult (List InsiderTx.Txn)))
      (fun _ => rfl)).2.2.2 0 [] []⟩

/-! ### Time-windowed re-alerting (C6) -/

/-- C6.  Time-windowed re-alert mode: the alert condition is exactly
(absent AND significant) OR (present, not yet alerted, within the
48-hour window since `first_seen`, AND significant); an already-alerted
record never fires again and keeps `alerted = true`; `first_seen` is
never modified; and a record whose window has closed fires on no later
run, no matter how significant the re-fetches are. -/
theorem C6_time_window :
    (∀ (rec : Option Recheck.RecheckRecord) (now : Int) (significant : Bool),
      Recheck.shouldAlert rec now significant = true ↔
        ((rec = none ∧ significant = true) ∨
         (∃ q, rec = some q ∧ q.alerted = false ∧
            now - q.first_seen ≤ Recheck.RECHECK_WINDOW_SECONDS ∧ significant = true))) ∧
    (∀ (r : Recheck.RecheckRecord) (now : Int) (significant : Bool),
      r.alerted = true →
        (Recheck.observe (some r) now significant).1 = false ∧
        ((Recheck.observe (some r) now significant).2).alerted = true) ∧
    (∀ (r : Recheck.RecheckRecord) (now : Int) (significant : Bool),
      ((Recheck.observe (some r) now significant).2).first_seen = r.first_seen) ∧
    (∀ (r : Recheck.RecheckRecord) (runs : List (Int × Bool)),
      (∀ s ∈ runs, s.1 - r.first_seen > Recheck.RECHECK_WINDOW_SECONDS) →
      (∀ b ∈ (Recheck.observeRuns r runs).1, b = false) ∧
      ((Recheck.observeRuns r runs).2).alerted = r.alerted ∧
      ((Recheck.observeRuns r runs).2).first_seen = r.first_seen) := by
  refine ⟨?_, ?_, ?_, ?_⟩
  · intro rec now significant
    cases rec with
    | none => simp [Recheck.shouldAlert]
    | some q =>
      simp [Recheck.shouldAlert, Bool.and_eq_true, decide_eq_true_eq, and_assoc]
  · intro r now significant h
    simp [Recheck.observe, Recheck.shouldAlert, h]
  · intro r now significant
    simp [Recheck.observe]
  · intro r runs
    induction runs generalizing r with
    | nil => intro _; exact ⟨by simp [Recheck.observeRuns], rfl, rfl⟩
    | cons s rest ih =>
      rcases s with ⟨now, significant⟩
      intro h
      have hout : now - r.first_seen > Recheck.RECHECK_WINDOW_SECONDS :=
        h (now, significant) (List.mem_cons_self _ _)
      have halert : Recheck.shouldAlert (some r) now significant = false := by
        simp [Recheck.shouldAlert, show ¬ (now - r.first_seen ≤ Recheck.RECHECK_WINDOW_SECONDS)
          by omega]
      have hstep : (Recheck.observe (some r) now significant).2
          = { first_seen := r.first_seen, alerted := r.alerted,
              alerted_at := r.alerted_at } := by
        simp [Recheck.observe, halert]
      have hrest : ∀ s ∈ rest, s.1 - ((Recheck.observe (some r) now significant).2).first_seen
          > Recheck.RECHECK_WINDOW_SECONDS := by
        intro s hs
        rw [hstep]
        exact h s (List.mem_cons_of_mem _ hs)
      obtain ⟨ih1, ih2, ih3⟩ := ih _ hrest
      refine ⟨?_, ?_, ?_⟩
      · intro b hb
        simp only [Recheck.observeRuns] at hb
        rcases List.mem_cons.mp hb with hb | hb
        · rw [hb]
          simpa [Recheck.observe] using halert
        · exact ih1 b hb
      · simp only [Recheck.observeRuns]
        rw [ih2, hstep]
      · simp only [Recheck.observeRuns]
        rw [ih3, hstep]

/-- Witness for C6 at concrete inputs: the 100-hour-old unalerted record
alerts on neither of two later significant fetches and stays unalerted;
an alerted record never fires again. -/
theorem C6_time_window_witness :
    (∀ s ∈ [((0 : Int), true), ((7200 : Int), true)],
      s.1 - rec100h.first_seen > Recheck.RECHECK_WINDOW_SECONDS) ∧
    (∀ b ∈ (Recheck.observeRuns rec100h [((0 : Int), true), ((7200 : Int), true)]).1,
      b = false) ∧
    ((Recheck.observeRuns rec100h [((0 : Int), true), ((7200 : Int), true)]).2).alerted
      = false ∧
    (Recheck.observe (some { first_seen := -3600, alerted := true, alerted_at := some 0 })
      10 true).1 = false :=
  ⟨by decide,
   (C6_time_window.2.2.2 rec100h [((0 : Int), true), ((7200 : Int), true)] (by decide)).1,
   (C6_time_window.2.2.2 rec100h [((0 : Int), true), ((7200 : Int), true)] (by decide)).2.1,
   (C6_time_window.2.1 { first_seen := -3600, alerted := true, alerted_at := some 0 }
     10 true rfl).1⟩

/-! ### The Form 4 monitor (C8, C10) -/

namespace DiscordAlerts

instance : IsTotal Trade FilingGe :=
  ⟨fun a b => strLe_total b.filingDate a.filingDate⟩

instance : IsTrans Trade FilingGe :=
  ⟨fun _ _ _ hab hbc => strLe_trans hbc hab⟩

/-- A trade reaching neither skip branch is collected. -/
theorem mem_collectNewTrades (seen_trades : List String) :
    ∀ (data : List Trade) (t : Trade), t ∈ data → trade_id t ∉ seen_trades →
      ¬(0 < tradeValue t ∧ tradeValue t < MIN_AMOUNT) →
      t ∈ collectNewTrades seen_trades data := by
  intro data
  induction data with
  | nil => intro t ht; cases ht
  | cons u rest ih =>
    intro t ht hseen hgate
    rcases List.mem_cons.mp ht with he | hm
    · subst he
      simp only [collectNewTrades, if_neg hseen, if_neg hgate]
      exact List.mem_cons_self _ _
    · simp only [collectNewTrades]
      split
      · exact ih t hm hseen hgate
      · split
        · exact ih t hm hseen hgate
        · exact List.mem_cons_of_mem _ (ih t hm hseen hgate)

/-- If every fetched trade is either already seen or below the value
gate, nothing is collected. -/
theorem collectNewTrades_eq_nil (seen_trades : List String) :
    ∀ data : List Trade,
      (∀ t ∈ data, trade_id t ∈ seen_trades ∨
        (0 < tradeValue t ∧ tradeValue t < MIN_AMOUNT)) →
      collectNewTrades seen_trades data = [] := by
  intro data
  induction data with
  | nil => intro _; rfl
  | cons u rest ih =>
    intro h
    simp only [collectNewTrades]
    rcases h u (List.mem_cons_self _ _) with hs | hg
    · rw [if_pos hs]
      exact ih (fun t ht => h t (List.mem_cons_of_mem _ ht))
    · by_cases hseen : trade_id u ∈ seen_trades
      · rw [if_pos hseen]
        exact ih (fun t ht => h t (List.mem_cons_of_mem _ ht))
      · rw [if_neg hseen, if_pos hg]
        exact ih (fun t ht => h t (List.mem_cons_of_mem _ ht))

end DiscordAlerts

/-- C8.  Per-run notification cap of the Form 4 monitor: at most 5
notifications per run, the notified list is sorted
most-recent-filing-date-first, every notified trade is one of the new
qualifying trades, every new qualifying trade — capped or not — has its
id marked seen, and an identical second run collects nothing and sends
nothing. -/
theorem C8_cap_and_mark_seen (seen_trades : List String) (data : List DiscordAlerts.Trade) :
    (DiscordAlerts.monitor_insider_activity seen_trades data).1.length ≤ 5 ∧
    List.Pairwise DiscordAlerts.FilingGe
      (DiscordAlerts.monitor_insider_activity seen_trades data).1 ∧
    (∀ t ∈ (DiscordAlerts.monitor_insider_activity seen_trades data).1,
      t ∈ DiscordAlerts.collectNewTrades seen_trades data) ∧
    (∀ t ∈ DiscordAlerts.collectNewTrades seen_trades data,
      DiscordAlerts.trade_id t ∈ (DiscordAlerts.monitor_insider_activity seen_trades data).2) ∧
    DiscordAlerts.collectNewTrades
      (DiscordAlerts.monitor_insider_activity seen_trades data).2 data = [] ∧
    (DiscordAlerts.monitor_insider_activity
      (DiscordAlerts.monitor_insider_activity seen_trades data).2 data).1 = [] := by
  have hnil : DiscordAlerts.collectNewTrades
      (DiscordAlerts.monitor_insider_activity seen_trades data).2 data = [] := by
    apply DiscordAlerts.collectNewTrades_eq_nil
    intro t ht
    by_cases hseen : DiscordAlerts.trade_id t ∈ seen_trades
    · left
      simp only [DiscordAlerts.monitor_insider_activity]
      exact List.mem_append_left _ hseen
    · by_cases hgate : 0 < DiscordAlerts.tradeValue t ∧
          DiscordAlerts.tradeValue t < DiscordAlerts.MIN_AMOUNT
      · right
        exact hgate
      · left
        have hc := DiscordAlerts.mem_collectNewTrades seen_trades data t ht hseen hgate
        simp only [DiscordAlerts.monitor_insider_activity]
        exact List.mem_append_right _ (List.mem_map_of_mem _ hc)
  refine ⟨?_, ?_, ?_, ?_, hnil, ?_⟩
  · simp only [DiscordAlerts.monitor_insider_activity]
    rw [List.length_take]
    exact min_le_left _ _
  · simp only [DiscordAlerts.monitor_insider_activity]
    exact List.Pairwise.sublist (List.take_sublist 5 _)
      (List.sorted_insertionSort DiscordAlerts.FilingGe _)
  · intro t ht
    simp only [DiscordAlerts.monitor_insider_activity] at ht
    have hs := (List.take_sublist 5 _).subset ht
    exact (List.perm_insertionSort DiscordAlerts.FilingGe _).mem_iff.mp hs
  · intro t ht
    simp only [DiscordAlerts.monitor_insider_activity]
    exact List.mem_append_right _ (List.mem_map_of_mem _ ht)
  · simp only [DiscordAlerts.monitor_insider_activity] at hnil ⊢
    rw [hnil]
    rfl

/-- Witness for C8 at a concrete input. -/
theorem C8_cap_and_mark_seen_witness :
    (DiscordAlerts.monitor_insider_activity [] [trA, trB]).1.length ≤ 5 ∧
    trA ∈ DiscordAlerts.collectNewTrades [] [trA, trB] ∧
    DiscordAlerts.trade_id trA ∈ (DiscordAlerts.monitor_insider_activity [] [trA, trB]).2 ∧
    DiscordAlerts.collectNewTrades
      (DiscordAlerts.monitor_insider_activity [] [trA, trB]).2 [trA, trB] = [] :=
  ⟨(C8_cap_and_mark_seen [] [trA, trB]).1,
   by decide,
   (C8_cap_and_mark_seen [] [trA, trB]).2.2.2.1 trA (by decide),
   (C8_cap_and_mark_seen [] [trA, trB]).2.2.2.2.1⟩

/-- C10.  Zero-price inclusion: a trade whose `transactionPrice` is
absent (the `.get` default 0), zero, or negative has computed value 0, so
the `0 < value < MIN_AMOUNT` gate never skips it; if previously unseen it
is collected as alert-worthy however small its share count. -/
theorem C10_zero_price_included (t : DiscordAlerts.Trade)
    (hp : t.transactionPrice ≤ 0) :
    DiscordAlerts.tradeValue t = 0 ∧
    ¬(0 < DiscordAlerts.tradeValue t ∧ DiscordAlerts.tradeValue t < DiscordAlerts.MIN_AMOUNT) ∧
    (∀ (seen_trades : List String) (data : List DiscordAlerts.Trade),
      DiscordAlerts.trade_id t ∉ seen_trades → t ∈ data →
      t ∈ DiscordAlerts.collectNewTrades seen_trades data) := by
  have hv : DiscordAlerts.tradeValue t = 0 := by
    simp [DiscordAlerts.tradeValue, not_lt.mpr hp]
  refine ⟨hv, ?_, ?_⟩
  · rw [hv]
    simp
  · intro seen_trades data hseen hdata
    apply DiscordAlerts.mem_collectNewTrades seen_trades data t hdata hseen
    rw [hv]
    simp

/-- Witness for C10 at a concrete input: the 3-share zero-price trade is
collected. -/
theorem C10_zero_price_included_witness :
    trTiny.transactionPrice ≤ 0 ∧
    DiscordAlerts.tradeValue trTiny = 0 ∧
    trTiny ∈ DiscordAlerts.collectNewTrades [] [trTiny] :=
  ⟨by decide,
   (C10_zero_price_included trTiny (by decide)).1,
   (C10_zero_price_included trTiny (by decide)).2.2 [] [trTiny] (by decide) (by decide)⟩

end DicordAlerting
